import Mathlib

/-
Shallow embedding of the fiverr_share_earn URL-shortener service
(app/models.py, app/utils.py, app/services.py, app/main.py).

The database is modelled as an explicit state value holding the rows of the
two tables (links, clicks).  UUID primary keys are modelled by a fresh
natural-number counter (the spec only requires an opaque unique id).
Timestamps are modelled as a record of calendar fields; the SQL
ORDER BY created_at DESC is lexicographic on those fields, and
to_char(clicked_at, 'YYYY-MM') is decimal rendering of year and month.
Randomness (random.choice in generate_short_code) is passed in explicitly:
each call receives a function giving, for every character position, the
chosen index into the 36-character alphabet; the retry loop of create_link
receives one such function per attempt.  Monetary values (Python floats)
are modelled as exact rationals; Python's round is round-half-to-even.
-/

-- ===== timestamps =====

structure DateTime where
  year : Nat
  month : Nat
  day : Nat
  hour : Nat
  minute : Nat
  second : Nat
  micro : Nat
deriving DecidableEq

def DateTime.fields (d : DateTime) : List Nat :=
  [d.year, d.month, d.day, d.hour, d.minute, d.second, d.micro]

/-- Lexicographic order on lists of naturals (Bool-valued, executable). -/
def natLexLe : List Nat → List Nat → Bool
  | [], _ => true
  | _ :: _, [] => false
  | a :: as, b :: bs =>
    if a < b then true
    else if a = b then natLexLe as bs
    else false

-- ===== app/models.py =====

/-- Row of the links table: id, short_code (unique), target_url (unique),
created_at. -/
structure Link where
  id : Nat
  short_code : String
  target_url : String
  created_at : DateTime
deriving DecidableEq

/-- Row of the clicks table: id, link_id (foreign key), clicked_at. -/
structure Click where
  id : Nat
  link_id : Nat
  clicked_at : DateTime
deriving DecidableEq

/-- The database state: the two tables plus a fresh-id source standing for
uuid4. -/
structure DB where
  links : List Link
  clicks : List Click
  next_id : Nat
deriving DecidableEq

def emptyDB : DB := ⟨[], [], 0⟩

-- ===== app/utils.py =====

/-- The alphabet string.ascii_lowercase + string.digits. -/
def characters : List Char := "abcdefghijklmnopqrstuvwxyz0123456789".data

/-- Python's default code length in generate_short_code. -/
def code_length : Nat := 6

/-- generate_short_code: the six random.choice draws are given by rand,
mapping each position to the chosen index into the 36-symbol alphabet. -/
def generate_short_code (rand : Nat → Fin 36) : String :=
  ⟨(List.range code_length).map (fun i => characters.getD (rand i).val 'a')⟩

/-- simulate_fraud_check: sleeps 100ms and always returns True.  Only the
returned value is modelled. -/
def simulate_fraud_check : Bool := true

-- ===== app/services.py =====

/-- EARNINGS_PER_CLICK = 0.05, as an exact rational. -/
def EARNINGS_PER_CLICK : ℚ := 5 / 100

/-- Python's round to an integer: round-half-to-even. -/
def roundHalfEven (q : ℚ) : ℤ :=
  if q - ⌊q⌋ < 1 / 2 then ⌊q⌋
  else if q - ⌊q⌋ > 1 / 2 then ⌊q⌋ + 1
  else if ⌊q⌋ % 2 = 0 then ⌊q⌋ else ⌊q⌋ + 1

/-- round(x, 2) in Python: round to two decimal places. -/
def pyRound2 (q : ℚ) : ℚ := (roundHalfEven (q * 100) : ℚ) / 100

/-- One INSERT of a links row: succeeds iff neither unique constraint
(short_code, target_url) is violated; on violation the transaction is rolled
back, leaving the state unchanged (the caller keeps the old DB). -/
def insertLink (db : DB) (short_code target_url : String) (now : DateTime) :
    Option (DB × Link) :=
  if db.links.any (fun l => l.short_code == short_code || l.target_url == target_url) then
    none
  else
    let link : Link := ⟨db.next_id, short_code, target_url, now⟩
    some ({ db with links := db.links ++ [link], next_id := db.next_id + 1 }, link)

def max_attempts : Nat := 10

/-- The for-loop body of create_link: one attempt per remaining random draw;
a failed INSERT is rolled back (the recursive call reuses the unchanged db)
and the next attempt generates a fresh code; an exhausted loop raises
RuntimeError. -/
def create_link_attempts (db : DB) (target_url : String) (now : DateTime) :
    List (Nat → Fin 36) → DB × Except String (Link × Bool)
  | [] => (db, Except.error "Failed to generate unique short code after multiple attempts")
  | rand :: rest =>
    match insertLink db (generate_short_code rand) target_url now with
    | some (db2, link) => (db2, Except.ok (link, true))
    | none => create_link_attempts db target_url now rest

/-- create_link: return the existing row for target_url if any, else retry
the generate-and-insert loop up to max_attempts times. -/
def create_link (db : DB) (target_url : String) (now : DateTime)
    (rands : List (Nat → Fin 36)) : DB × Except String (Link × Bool) :=
  match db.links.find? (fun l => l.target_url == target_url) with
  | some link => (db, Except.ok (link, false))
  | none => create_link_attempts db target_url now (rands.take max_attempts)

/-- record_click: INSERT one clicks row for the given link id. -/
def record_click (db : DB) (link_id : Nat) (now : DateTime) : DB × Click :=
  let click : Click := ⟨db.next_id, link_id, now⟩
  ({ db with clicks := db.clicks ++ [click], next_id := db.next_id + 1 }, click)

/-- get_link_by_short_code: exact-match lookup. -/
def get_link_by_short_code (db : DB) (short_code : String) : Option Link :=
  db.links.find? (fun l => l.short_code == short_code)

-- decimal rendering, for to_char(clicked_at, 'YYYY-MM')

def digitChar (d : Nat) : Char := Char.ofNat (48 + d)

/-- Decimal digits of n, most significant first (fuel-structured so it
computes in the kernel; n + 1 fuel always suffices). -/
def natDecAux : Nat → Nat → List Char
  | 0, _ => []
  | fuel + 1, n =>
    if n < 10 then [digitChar n]
    else natDecAux fuel (n / 10) ++ [digitChar (n % 10)]

def natDec (n : Nat) : List Char := natDecAux (n + 1) n

/-- Zero-pad a digit list on the left to width w. -/
def zfill (w : Nat) (s : List Char) : List Char :=
  List.replicate (w - s.length) '0' ++ s

/-- to_char(ts, 'YYYY-MM'): four-digit zero-padded year, dash, two-digit
zero-padded month. -/
def monthKey (d : DateTime) : String :=
  ⟨zfill 4 (natDec d.year) ++ '-' :: zfill 2 (natDec d.month)⟩

-- string ordering (SQL ORDER BY month ascending, on ASCII data)

def chLe : List Char → List Char → Bool
  | [], _ => true
  | _ :: _, [] => false
  | a :: as, b :: bs =>
    if a.toNat < b.toNat then true
    else if a.toNat = b.toNat then chLe as bs
    else false

/-- String order used by ORDER BY month: lexicographic on character codes. -/
def strAsc (a b : String) : Prop := chLe a.data b.data = true

instance : DecidableRel strAsc :=
  fun a b => inferInstanceAs (Decidable (chLe a.data b.data = true))

/-- ORDER BY created_at DESC comparison on link rows. -/
def linkDescCreated (a b : Link) : Prop :=
  natLexLe b.created_at.fields a.created_at.fields = true

instance : DecidableRel linkDescCreated :=
  fun a b => inferInstanceAs (Decidable (natLexLe b.created_at.fields a.created_at.fields = true))

-- response shapes (app/schemas.py)

structure MonthlyBreakdown where
  month : String
  clicks : Nat
deriving DecidableEq

structure LinkStats where
  short_code : String
  target_url : String
  total_clicks : Nat
  total_earnings : ℚ
  monthly_breakdown : List MonthlyBreakdown
deriving DecidableEq

structure StatsResponse where
  page : Int
  limit : Int
  total_links : Nat
  links : List LinkStats
deriving DecidableEq

/-- The GROUP BY month / COUNT / ORDER BY month query for one link's list
of click rows. -/
def month_counts (cs : List Click) : List MonthlyBreakdown :=
  let months := cs.map (fun c => monthKey c.clicked_at)
  (List.insertionSort strAsc months.dedup).map (fun m => ⟨m, months.count m⟩)

/-- The per-link body of the get_stats loop: click count, earnings, and the
monthly breakdown for one fetched link. -/
def link_stats (db : DB) (link : Link) : LinkStats :=
  let cs := db.clicks.filter (fun c => c.link_id == link.id)
  { short_code := link.short_code
    target_url := link.target_url
    total_clicks := cs.length
    total_earnings := pyRound2 (cs.length * EARNINGS_PER_CLICK)
    monthly_breakdown := month_counts cs }

/-- Python-side defaults of get_stats. -/
def default_page : Int := 1

def default_limit : Int := 20

/-- get_stats: clamp page and limit, compute the offset, count all links,
fetch the window ordered by created_at descending, and aggregate each
fetched link. -/
def get_stats (db : DB) (page limit : Int) : StatsResponse :=
  let page := if page < 1 then 1 else page
  let limit := if limit > 100 then 100 else limit
  let offset := (page - 1) * limit
  let total_links := db.links.length
  let window :=
    ((List.insertionSort linkDescCreated db.links).drop offset.toNat).take limit.toNat
  { page := page
    limit := limit
    total_links := total_links
    links := window.map (link_stats db) }

-- ===== app/main.py =====

/-- Outcome of GET /short_code: a 302 redirect with its Location, a 404, or
a 403 from the fraud check. -/
inductive RedirectResult where
  | redirect (location : String)
  | notFound
  | forbidden
deriving DecidableEq

/-- redirect_short_link: look up the code, await the fraud check, record a
click, and redirect to the stored target_url. -/
def redirect_short_link (db : DB) (short_code : String) (now : DateTime) :
    DB × RedirectResult :=
  match get_link_by_short_code db short_code with
  | none => (db, RedirectResult.notFound)
  | some link =>
    if simulate_fraud_check then
      let rec_result := record_click db link.id now
      (rec_result.1, RedirectResult.redirect link.target_url)
    else
      (db, RedirectResult.forbidden)

-- ===== reachable states and well-formedness =====

/-- States reachable from the empty database by the service operations. -/
inductive Reachable : DB → Prop where
  | init : Reachable emptyDB
  | create (db : DB) (target_url : String) (now : DateTime)
      (rands : List (Nat → Fin 36)) :
      Reachable db → Reachable (create_link db target_url now rands).1
  | redirect (db : DB) (short_code : String) (now : DateTime) :
      Reachable db → Reachable (redirect_short_link db short_code now).1
  | click (db : DB) (link_id : Nat) (now : DateTime) :
      Reachable db → Reachable (record_click db link_id now).1

/-- A short code is exactly six characters, each from the alphabet. -/
def validCode (s : String) : Prop :=
  s.length = 6 ∧ ∀ c ∈ s.data, c ∈ characters

/-- Invariant of the links table: well-formed codes, no two rows share a
short_code. -/
def WF (db : DB) : Prop :=
  (∀ l ∈ db.links, validCode l.short_code) ∧
  db.links.Pairwise (fun a b => a.short_code ≠ b.short_code)

-- ===== helper lemmas =====

theorem characters_getD_mem : ∀ k, k < 36 → characters.getD k 'a' ∈ characters := by
  decide

/-- Every generated code is six characters from the alphabet. -/
theorem generate_short_code_valid (rand : Nat → Fin 36) :
    validCode (generate_short_code rand) := by
  constructor
  · simp [generate_short_code, String.length, code_length]
  · intro c hc
    simp only [generate_short_code, List.mem_map] at hc
    obtain ⟨i, _, rfl⟩ := hc
    exact characters_getD_mem (rand i).val (rand i).isLt

/-- What a successful INSERT of a links row means. -/
theorem insertLink_some {db : DB} {code url : String} {now : DateTime}
    {db2 : DB} {link : Link}
    (h : insertLink db code url now = some (db2, link)) :
    link = ⟨db.next_id, code, url, now⟩ ∧
    db2 = { db with links := db.links ++ [link], next_id := db.next_id + 1 } ∧
    ∀ l ∈ db.links, l.short_code ≠ code ∧ l.target_url ≠ url := by
  unfold insertLink at h
  split at h
  · exact absurd h (by simp)
  · next hany =>
    simp only [Option.some.injEq, Prod.mk.injEq] at h
    obtain ⟨hdb2, hlink⟩ := h
    subst hlink
    refine ⟨rfl, hdb2.symm, ?_⟩
    intro l hl
    have hanyf : db.links.any
        (fun l => l.short_code == code || l.target_url == url) = false :=
      Bool.eq_false_iff.mpr hany
    have := List.any_eq_false.mp hanyf l hl
    simp only [Bool.or_eq_true, beq_iff_eq, not_or] at this
    exact this

/-- A successful pass of the retry loop appended exactly one fresh,
well-formed row for the requested URL. -/
theorem create_link_attempts_ok {db : DB} {url : String} {now : DateTime}
    {rs : List (Nat → Fin 36)} {db1 : DB} {link : Link} {isNew : Bool}
    (h : create_link_attempts db url now rs = (db1, Except.ok (link, isNew))) :
    db1.links = db.links ++ [link] ∧ link.target_url = url ∧ isNew = true ∧
    validCode link.short_code ∧
    ∀ l ∈ db.links, l.short_code ≠ link.short_code ∧ l.target_url ≠ url := by
  induction rs with
  | nil => simp [create_link_attempts] at h
  | cons r rest ih =>
    unfold create_link_attempts at h
    split at h
    · next db2 link2 hins =>
      simp only [Prod.mk.injEq, Except.ok.injEq] at h
      obtain ⟨hdb, hl, hn⟩ := h
      obtain ⟨hlink, hdb2, hfresh⟩ := insertLink_some hins
      subst hdb hl hn
      refine ⟨by rw [hdb2], ?_, rfl, ?_, ?_⟩
      · rw [hlink]
      · rw [hlink]; exact generate_short_code_valid r
      · intro l hl
        have := hfresh l hl
        rw [hlink]
        exact ⟨this.1, this.2⟩
    · exact ih h

/-- A loop that never inserts returns the RuntimeError and the unchanged
database. -/
theorem create_link_attempts_all_fail {db : DB} {url : String} {now : DateTime}
    {rs : List (Nat → Fin 36)}
    (h : ∀ rand ∈ rs, ∃ l ∈ db.links, l.short_code = generate_short_code rand) :
    create_link_attempts db url now rs =
      (db, Except.error "Failed to generate unique short code after multiple attempts") := by
  induction rs with
  | nil => rfl
  | cons r rest ih =>
    have hcol : insertLink db (generate_short_code r) url now = none := by
      obtain ⟨l, hl, hcode⟩ := h r (List.mem_cons_self r rest)
      unfold insertLink
      have : db.links.any
          (fun x => x.short_code == generate_short_code r || x.target_url == url) = true := by
        refine List.any_eq_true.mpr ⟨l, hl, ?_⟩
        simp [hcode]
      simp [this]
    unfold create_link_attempts
    rw [hcol]
    exact ih (fun rand hr => h rand (List.mem_cons_of_mem r hr))

/-- The loop only changes the database when it returns a row. -/
theorem create_link_attempts_error_unchanged {db : DB} {url : String} {now : DateTime}
    {rs : List (Nat → Fin 36)} {e : String}
    (h : (create_link_attempts db url now rs).2 = Except.error e) :
    (create_link_attempts db url now rs).1 = db := by
  induction rs with
  | nil => rfl
  | cons r rest ih =>
    unfold create_link_attempts at h ⊢
    cases hins : insertLink db (generate_short_code r) url now with
    | none => rw [hins] at h; exact ih h
    | some p => rw [hins] at h; simp at h

-- ===== claims =====

/-- Claim C1: idempotent creation.  If create_link succeeds (either branch)
and returns database db1 and row link, then calling create_link again on db1
with the same URL returns the very same row with is_new = false and leaves
the database exactly db1: no new Link record is created. -/
theorem create_link_idempotent (db : DB) (target_url : String)
    (now now2 : DateTime) (rands rands2 : List (Nat → Fin 36))
    (db1 : DB) (link : Link) (isNew : Bool)
    (h : create_link db target_url now rands = (db1, Except.ok (link, isNew))) :
    create_link db1 target_url now2 rands2 = (db1, Except.ok (link, false)) := by
  unfold create_link at h
  cases hf : db.links.find? (fun l => l.target_url == target_url) with
  | some l0 =>
    rw [hf] at h
    simp only [Prod.mk.injEq, Except.ok.injEq] at h
    obtain ⟨hdb, hl, _⟩ := h
    subst hdb hl
    unfold create_link
    rw [hf]
  | none =>
    rw [hf] at h
    obtain ⟨hlinks, hurl, _, _, hfresh⟩ := create_link_attempts_ok h
    unfold create_link
    have hnone : db.links.find? (fun l => l.target_url == target_url) = none := hf
    have : db1.links.find? (fun l => l.target_url == target_url) = some link := by
      rw [hlinks, List.find?_append, hnone]
      simp [hurl]
    rw [this]

/-- Claim C1 witness: a concrete run on the empty database. -/
theorem create_link_idempotent_witness :
    create_link (create_link emptyDB "https://fiverr.com/a" ⟨2024,1,1,0,0,0,0⟩
        [fun _ => (0 : Fin 36)]).1
      "https://fiverr.com/a" ⟨2024,1,2,0,0,0,0⟩ [fun _ => (1 : Fin 36)] =
    ((create_link emptyDB "https://fiverr.com/a" ⟨2024,1,1,0,0,0,0⟩
        [fun _ => (0 : Fin 36)]).1,
      Except.ok (⟨0, "aaaaaa", "https://fiverr.com/a", ⟨2024,1,1,0,0,0,0⟩⟩, false)) :=
  create_link_idempotent emptyDB "https://fiverr.com/a" ⟨2024,1,1,0,0,0,0⟩
    ⟨2024,1,2,0,0,0,0⟩ [fun _ => (0 : Fin 36)] [fun _ => (1 : Fin 36)]
    _ _ true rfl

/-- Claim C3: bounded retry with surfaced failure.  The outcome only depends
on the first max_attempts = 10 random draws; an error outcome leaves the
store unchanged; a failed insert is rolled back and the loop retries on the
unchanged database with the next freshly generated code; and when no row
matches the URL and all ten generated codes collide with stored codes, the
operation surfaces the RuntimeError instead of returning a link. -/
theorem create_link_retry_bound (db : DB) (target_url : String) (now : DateTime)
    (rands : List (Nat → Fin 36)) :
    create_link db target_url now rands =
      create_link db target_url now (rands.take max_attempts)
    ∧ (∀ e, (create_link db target_url now rands).2 = Except.error e →
        (create_link db target_url now rands).1 = db)
    ∧ (∀ rand rest, insertLink db (generate_short_code rand) target_url now = none →
        create_link_attempts db target_url now (rand :: rest) =
          create_link_attempts db target_url now rest)
    ∧ ((db.links.find? (fun l => l.target_url == target_url) = none) →
       (∀ rand ∈ rands.take max_attempts, ∃ l ∈ db.links,
          l.short_code = generate_short_code rand) →
       create_link db target_url now rands =
         (db, Except.error "Failed to generate unique short code after multiple attempts")) := by
  refine ⟨?_, ?_, ?_, ?_⟩
  · unfold create_link
    simp [List.take_take]
  · intro e he
    unfold create_link at he ⊢
    cases hf : db.links.find? (fun l => l.target_url == target_url) with
    | some l0 => rfl
    | none => rw [hf] at he; exact create_link_attempts_error_unchanged he
  · intro rand rest hins
    simp only [create_link_attempts, hins]
  · intro hf hcol
    unfold create_link
    rw [hf]
    exact create_link_attempts_all_fail hcol

/-- Claim C3 witness: with one stored link whose code is aaaaaa and ten
draws that all regenerate aaaaaa, creating a different URL fails with the
RuntimeError and the store is unchanged. -/
theorem create_link_retry_bound_witness :
    create_link (create_link emptyDB "https://fiverr.com/a" ⟨2024,1,1,0,0,0,0⟩
        [fun _ => (0 : Fin 36)]).1
      "https://fiverr.com/b" ⟨2024,1,2,0,0,0,0⟩
      (List.replicate 10 (fun _ => (0 : Fin 36))) =
    ((create_link emptyDB "https://fiverr.com/a" ⟨2024,1,1,0,0,0,0⟩
        [fun _ => (0 : Fin 36)]).1,
      Except.error "Failed to generate unique short code after multiple attempts") :=
  (create_link_retry_bound _ "https://fiverr.com/b" ⟨2024,1,2,0,0,0,0⟩
      (List.replicate 10 (fun _ => (0 : Fin 36)))).2.2.2
    rfl
    (by
      intro rand hr
      have : rand = (fun _ => (0 : Fin 36)) := List.eq_of_mem_replicate (List.mem_of_mem_take hr)
      subst this
      exact ⟨⟨0, "aaaaaa", "https://fiverr.com/a", ⟨2024,1,1,0,0,0,0⟩⟩, by decide, rfl⟩)

-- well-formedness is preserved by every operation

theorem WF_empty : WF emptyDB := by
  constructor <;> simp [emptyDB, WF]

theorem create_link_attempts_WF (db : DB) (url : String) (now : DateTime)
    (rs : List (Nat → Fin 36)) (h : WF db) :
    WF (create_link_attempts db url now rs).1 := by
  induction rs with
  | nil => exact h
  | cons r rest ih =>
    unfold create_link_attempts
    cases hins : insertLink db (generate_short_code r) url now with
    | none => exact ih
    | some p =>
      obtain ⟨db2, link⟩ := p
      obtain ⟨hlink, hdb2, hfresh⟩ := insertLink_some hins
      subst hdb2
      constructor
      · intro l hl
        rcases List.mem_append.mp hl with hl | hl
        · exact h.1 l hl
        · rw [List.mem_singleton] at hl
          subst hl
          rw [hlink]
          exact generate_short_code_valid r
      · rw [List.pairwise_append]
        refine ⟨h.2, List.pairwise_singleton _ _, ?_⟩
        intro a ha b hb
        rw [List.mem_singleton] at hb
        subst hb
        rw [hlink]
        exact (hfresh a ha).1

theorem create_link_WF (db : DB) (url : String) (now : DateTime)
    (rands : List (Nat → Fin 36)) (h : WF db) :
    WF (create_link db url now rands).1 := by
  unfold create_link
  cases hf : db.links.find? (fun l => l.target_url == url) with
  | some l0 => exact h
  | none => exact create_link_attempts_WF db url now (rands.take max_attempts) h

theorem record_click_links (db : DB) (link_id : Nat) (now : DateTime) :
    (record_click db link_id now).1.links = db.links := rfl

theorem redirect_links (db : DB) (short_code : String) (now : DateTime) :
    (redirect_short_link db short_code now).1.links = db.links := by
  unfold redirect_short_link
  cases hf : get_link_by_short_code db short_code with
  | none => rfl
  | some link => rfl

theorem WF_links_eq {db1 db2 : DB} (h : db2.links = db1.links) (hw : WF db1) :
    WF db2 := by
  unfold WF at hw ⊢
  rw [h]
  exact hw

theorem reachable_WF {db : DB} (h : Reachable db) : WF db := by
  induction h with
  | init => exact WF_empty
  | create db url now rands _ ih => exact create_link_WF db url now rands ih
  | redirect db code now _ ih => exact WF_links_eq (redirect_links db code now) ih
  | click db lid now _ ih => exact WF_links_eq (record_click_links db lid now) ih

/-- Claim C2: short-code well-formedness and uniqueness invariant.  In every
state reachable by the operations, every stored link's short_code is exactly
six characters from the 36-symbol alphabet, no two links share a
short_code, and in particular links for distinct target URLs carry distinct
codes. -/
theorem short_code_invariant (db : DB) (h : Reachable db) :
    (∀ l ∈ db.links, validCode l.short_code)
    ∧ db.links.Pairwise (fun a b => a.short_code ≠ b.short_code)
    ∧ ∀ l1 ∈ db.links, ∀ l2 ∈ db.links,
        l1.target_url ≠ l2.target_url → l1.short_code ≠ l2.short_code := by
  obtain ⟨h1, h2⟩ := reachable_WF h
  refine ⟨h1, h2, ?_⟩
  intro l1 h1m l2 h2m hurl
  have hne : l1 ≠ l2 := fun he => hurl (he ▸ rfl)
  exact List.Pairwise.forall (fun a b hab => Ne.symm hab) h2 h1m h2m hne

/-- Claim C2 witness: the invariant at the concrete state reached by one
successful creation followed by one redirect. -/
theorem short_code_invariant_witness :
    (∀ l ∈ (redirect_short_link
        (create_link emptyDB "https://fiverr.com/a" ⟨2024,1,1,0,0,0,0⟩
          [fun _ => (0 : Fin 36)]).1 "aaaaaa" ⟨2024,1,2,0,0,0,0⟩).1.links,
      validCode l.short_code)
    ∧ (redirect_short_link
        (create_link emptyDB "https://fiverr.com/a" ⟨2024,1,1,0,0,0,0⟩
          [fun _ => (0 : Fin 36)]).1 "aaaaaa" ⟨2024,1,2,0,0,0,0⟩).1.links.Pairwise
        (fun a b => a.short_code ≠ b.short_code)
    ∧ ∀ l1 ∈ (redirect_short_link
        (create_link emptyDB "https://fiverr.com/a" ⟨2024,1,1,0,0,0,0⟩
          [fun _ => (0 : Fin 36)]).1 "aaaaaa" ⟨2024,1,2,0,0,0,0⟩).1.links,
      ∀ l2 ∈ (redirect_short_link
        (create_link emptyDB "https://fiverr.com/a" ⟨2024,1,1,0,0,0,0⟩
          [fun _ => (0 : Fin 36)]).1 "aaaaaa" ⟨2024,1,2,0,0,0,0⟩).1.links,
        l1.target_url ≠ l2.target_url → l1.short_code ≠ l2.short_code :=
  short_code_invariant _
    (Reachable.redirect _ "aaaaaa" ⟨2024,1,2,0,0,0,0⟩
      (Reachable.create emptyDB "https://fiverr.com/a" ⟨2024,1,1,0,0,0,0⟩
        [fun _ => (0 : Fin 36)] Reachable.init))

-- ===== redirect claims =====

/-- The click-count query for one link id: exact count of Click rows
referencing it. -/
def clickCount (db : DB) (link_id : Nat) : Nat :=
  (db.clicks.filter (fun c => c.link_id == link_id)).length

/-- Claim C7: redirect on a known code.  The fraud-check stub passes, the
response is a 302 redirect to the exact stored target_url, exactly one new
Click referencing the link is recorded (its count rises by exactly one,
every other link id's count is unchanged), and the links table is
untouched. -/
theorem redirect_known_code (db : DB) (code : String) (link : Link)
    (now : DateTime) (h : get_link_by_short_code db code = some link) :
    simulate_fraud_check = true
    ∧ redirect_short_link db code now =
        ((record_click db link.id now).1, RedirectResult.redirect link.target_url)
    ∧ (redirect_short_link db code now).1.clicks = db.clicks ++ [⟨db.next_id, link.id, now⟩]
    ∧ (redirect_short_link db code now).1.links = db.links
    ∧ clickCount (redirect_short_link db code now).1 link.id = clickCount db link.id + 1
    ∧ ∀ lid, lid ≠ link.id →
        clickCount (redirect_short_link db code now).1 lid = clickCount db lid := by
  have hred : redirect_short_link db code now =
      ((record_click db link.id now).1, RedirectResult.redirect link.target_url) := by
    unfold redirect_short_link
    rw [h]
    rfl
  refine ⟨rfl, hred, by rw [hred]; rfl, by rw [hred]; rfl, ?_, ?_⟩
  · rw [hred]
    simp [clickCount, record_click, List.filter_append]
  · intro lid hne
    rw [hred]
    simp [clickCount, record_click, List.filter_append, Ne.symm hne]

/-- The concrete one-link database used by the redirect witnesses. -/
def dbOne : DB :=
  (create_link emptyDB "https://fiverr.com/a" ⟨2024,1,1,0,0,0,0⟩ [fun _ => (0 : Fin 36)]).1

/-- Claim C7 witness: a concrete redirect of a freshly created link. -/
theorem redirect_known_code_witness :
    simulate_fraud_check = true
    ∧ redirect_short_link dbOne "aaaaaa" ⟨2024,1,2,0,0,0,0⟩ =
        ((record_click dbOne 0 ⟨2024,1,2,0,0,0,0⟩).1,
         RedirectResult.redirect "https://fiverr.com/a")
    ∧ (redirect_short_link dbOne "aaaaaa" ⟨2024,1,2,0,0,0,0⟩).1.clicks =
        dbOne.clicks ++ [⟨dbOne.next_id, 0, ⟨2024,1,2,0,0,0,0⟩⟩]
    ∧ (redirect_short_link dbOne "aaaaaa" ⟨2024,1,2,0,0,0,0⟩).1.links = dbOne.links
    ∧ clickCount (redirect_short_link dbOne "aaaaaa" ⟨2024,1,2,0,0,0,0⟩).1 0 =
        clickCount dbOne 0 + 1
    ∧ ∀ lid, lid ≠ 0 →
        clickCount (redirect_short_link dbOne "aaaaaa" ⟨2024,1,2,0,0,0,0⟩).1 lid =
          clickCount dbOne lid :=
  redirect_known_code dbOne "aaaaaa"
    ⟨0, "aaaaaa", "https://fiverr.com/a", ⟨2024,1,1,0,0,0,0⟩⟩
    ⟨2024,1,2,0,0,0,0⟩ rfl

/-- Claim C8: redirect on an unknown code returns not-found and leaves the
whole database state unchanged: no click is recorded. -/
theorem redirect_unknown_code (db : DB) (code : String) (now : DateTime)
    (h : get_link_by_short_code db code = none) :
    redirect_short_link db code now = (db, RedirectResult.notFound) := by
  unfold redirect_short_link
  rw [h]

/-- Claim C8 witness: an unknown code on a non-empty store. -/
theorem redirect_unknown_code_witness :
    redirect_short_link dbOne "zzzzzz" ⟨2024,1,2,0,0,0,0⟩ =
      (dbOne, RedirectResult.notFound) :=
  redirect_unknown_code dbOne "zzzzzz" ⟨2024,1,2,0,0,0,0⟩ rfl

-- ===== stats claims =====

/-- Five links created in sequence (distinct URLs, codes, and creation
times), used as the concrete pagination scenario. -/
def seed5 : List (String × Fin 36 × DateTime) :=
  [("https://fiverr.com/p0/svc", 0, ⟨2024,1,1,0,0,0,0⟩),
   ("https://fiverr.com/p1/svc", 1, ⟨2024,1,2,0,0,0,0⟩),
   ("https://fiverr.com/p2/svc", 2, ⟨2024,1,3,0,0,0,0⟩),
   ("https://fiverr.com/p3/svc", 3, ⟨2024,1,4,0,0,0,0⟩),
   ("https://fiverr.com/p4/svc", 4, ⟨2024,1,5,0,0,0,0⟩)]

def db5 : DB :=
  seed5.foldl (fun db e => (create_link db e.1 e.2.2 [fun _ => e.2.1]).1) emptyDB

/-- Claim C4: pagination contract of get_stats.  total_links is the global
row count independent of the window; the returned links are the window of
the created_at-descending ordering given by skipping (page-1)*limit rows
and taking limit; with five links and limit 2, pages 1 and 2 have two
entries, page 3 has one, total_links is 5 on each; the empty store with the
default parameters yields page 1, limit 20, no links. -/
theorem get_stats_pagination (db : DB) (page limit : Int) :
    ((get_stats db page limit).total_links = db.links.length
    ∧ (get_stats db page limit).links =
        (((List.insertionSort linkDescCreated db.links).drop
            ((((if page < 1 then 1 else page) - 1) *
              (if limit > 100 then 100 else limit)).toNat)).take
          (if limit > 100 then 100 else limit).toNat).map (link_stats db))
    ∧ ((get_stats db5 1 2).links.length = 2 ∧ (get_stats db5 1 2).total_links = 5
    ∧ (get_stats db5 2 2).links.length = 2 ∧ (get_stats db5 2 2).total_links = 5
    ∧ (get_stats db5 3 2).links.length = 1 ∧ (get_stats db5 3 2).total_links = 5)
    ∧ get_stats emptyDB default_page default_limit = ⟨1, 20, 0, []⟩ := by
  refine ⟨⟨rfl, rfl⟩, ⟨?_, ?_, ?_, ?_, ?_, ?_⟩, rfl⟩ <;> decide

/-- Claim C9: defensive clamping.  The returned page and limit carry the
clamped values (page < 1 becomes 1, limit > 100 becomes 100), the whole
result equals the result at the clamped arguments (the offset and window
are computed from them), and the Python-side defaults are page 1 and
limit 20. -/
theorem get_stats_clamping (db : DB) (page limit : Int) :
    (get_stats db page limit).page = (if page < 1 then 1 else page)
    ∧ (get_stats db page limit).limit = (if limit > 100 then 100 else limit)
    ∧ get_stats db page limit =
        get_stats db (if page < 1 then 1 else page) (if limit > 100 then 100 else limit)
    ∧ default_page = 1 ∧ default_limit = 20 := by
  refine ⟨rfl, rfl, ?_, rfl, rfl⟩
  have hp : (if (if page < 1 then 1 else page) < 1 then 1
      else (if page < 1 then 1 else page)) = (if page < 1 then 1 else page) := by
    split_ifs <;> omega
  have hl : (if (if limit > 100 then 100 else limit) > 100 then 100
      else (if limit > 100 then 100 else limit)) = (if limit > 100 then 100 else limit) := by
    split_ifs <;> omega
  simp only [get_stats]
  rw [hp, hl]

/-- Claim C10: limit is clamped only from above, so limit = 0 passes
through: the result echoes limit 0, carries no links, and still reports the
global link count, for every page and every store. -/
theorem get_stats_limit_zero (db : DB) (page : Int) :
    (get_stats db page 0).limit = 0
    ∧ (get_stats db page 0).links = []
    ∧ (get_stats db page 0).total_links = db.links.length :=
  ⟨rfl, rfl, rfl⟩

-- ===== month-key format lemmas =====

/-- The shape YYYY-MM: four digits, a dash, two digits. -/
def isYYYYMM (s : String) : Bool :=
  match s.data with
  | [y1, y2, y3, y4, dash, m1, m2] =>
    y1.isDigit && y2.isDigit && y3.isDigit && y4.isDigit &&
      dash == '-' && m1.isDigit && m2.isDigit
  | _ => false

theorem digitChar_isDigit : ∀ d < 10, (digitChar d).isDigit = true := by decide

theorem natDecAux_digits :
    ∀ fuel n, n < fuel → ∀ c ∈ natDecAux fuel n, c.isDigit = true := by
  intro fuel
  induction fuel with
  | zero => intro n h; omega
  | succ f ih =>
    intro n hn c hc
    unfold natDecAux at hc
    split at hc
    · next h10 =>
      rw [List.mem_singleton] at hc
      subst hc
      exact digitChar_isDigit n h10
    · next h10 =>
      rcases List.mem_append.mp hc with hc | hc
      · have hfuel : n / 10 < f := by
          have := Nat.div_lt_self (by omega : 0 < n) (by norm_num : 1 < 10)
          omega
        exact ih (n / 10) hfuel c hc
      · rw [List.mem_singleton] at hc
        subst hc
        exact digitChar_isDigit (n % 10) (Nat.mod_lt n (by norm_num))

theorem natDecAux_length :
    ∀ fuel n k, n < fuel → 1 ≤ k → n < 10 ^ k → (natDecAux fuel n).length ≤ k := by
  intro fuel
  induction fuel with
  | zero => intro n k h; omega
  | succ f ih =>
    intro n k hn hk hpow
    unfold natDecAux
    split
    · simpa using hk
    · next h10 =>
      have hk2 : 2 ≤ k := by
        rcases Nat.lt_or_ge k 2 with hc | hc
        · exfalso
          have hk1 : k = 1 := by omega
          subst hk1
          rw [pow_one] at hpow
          omega
        · exact hc
      have hsplit : (10 : Nat) ^ k = 10 ^ (k - 1) * 10 := by
        rw [← pow_succ]
        congr 1
        omega
      have hdiv : n / 10 < 10 ^ (k - 1) := by
        rw [Nat.div_lt_iff_lt_mul (by norm_num : (0 : Nat) < 10), ← hsplit]
        exact hpow
      have hfuel : n / 10 < f := by
        have := Nat.div_lt_self (by omega : 0 < n) (by norm_num : 1 < 10)
        omega
      have hrec := ih (n / 10) (k - 1) hfuel (by omega) hdiv
      simp only [List.length_append, List.length_singleton]
      omega

theorem zfill_length {w : Nat} {s : List Char} (h : s.length ≤ w) :
    (zfill w s).length = w := by
  simp only [zfill, List.length_append, List.length_replicate]
  omega

theorem zfill_digits {w : Nat} {s : List Char}
    (hs : ∀ c ∈ s, c.isDigit = true) : ∀ c ∈ zfill w s, c.isDigit = true := by
  intro c hc
  rcases List.mem_append.mp hc with hc | hc
  · rw [List.eq_of_mem_replicate hc]
    rfl
  · exact hs c hc

theorem exists_four {α : Type} (l : List α) (h : l.length = 4) :
    ∃ a b c d, l = [a, b, c, d] := by
  rcases l with _ | ⟨a, _ | ⟨b, _ | ⟨c, _ | ⟨d, _ | ⟨e, t⟩⟩⟩⟩⟩
  · simp at h
  · simp at h
  · simp at h
  · simp at h
  · exact ⟨a, b, c, d, rfl⟩
  · simp at h

theorem exists_two {α : Type} (l : List α) (h : l.length = 2) :
    ∃ a b, l = [a, b] := by
  rcases l with _ | ⟨a, _ | ⟨b, _ | ⟨c, t⟩⟩⟩
  · simp at h
  · simp at h
  · exact ⟨a, b, rfl⟩
  · simp at h

/-- Every month key of a real calendar datetime (month 1..12, year at most
9999) matches the YYYY-MM shape. -/
theorem monthKey_isYYYYMM (d : DateTime) (h1 : 1 ≤ d.month) (h2 : d.month ≤ 12)
    (h3 : d.year ≤ 9999) : isYYYYMM (monthKey d) = true := by
  have hpow4 : (10 : Nat) ^ 4 = 10000 := by norm_num
  have hpow2 : (10 : Nat) ^ 2 = 100 := by norm_num
  have hylen : (natDec d.year).length ≤ 4 :=
    natDecAux_length (d.year + 1) d.year 4 (Nat.lt_succ_self _) (by omega) (by omega)
  have hmlen : (natDec d.month).length ≤ 2 :=
    natDecAux_length (d.month + 1) d.month 2 (Nat.lt_succ_self _) (by omega) (by omega)
  have hydig : ∀ c ∈ zfill 4 (natDec d.year), c.isDigit = true :=
    zfill_digits (natDecAux_digits (d.year + 1) d.year (Nat.lt_succ_self _))
  have hmdig : ∀ c ∈ zfill 2 (natDec d.month), c.isDigit = true :=
    zfill_digits (natDecAux_digits (d.month + 1) d.month (Nat.lt_succ_self _))
  obtain ⟨y1, y2, y3, y4, hy⟩ := exists_four _ (zfill_length hylen)
  obtain ⟨m1, m2, hm⟩ := exists_two _ (zfill_length hmlen)
  have hdata : (monthKey d).data = [y1, y2, y3, y4, '-', m1, m2] := by
    show zfill 4 (natDec d.year) ++ '-' :: zfill 2 (natDec d.month) = _
    rw [hy, hm]
    rfl
  rw [hy] at hydig
  rw [hm] at hmdig
  unfold isYYYYMM
  rw [hdata]
  simp [hydig y1 (by simp), hydig y2 (by simp), hydig y3 (by simp),
    hydig y4 (by simp), hmdig m1 (by simp), hmdig m2 (by simp)]

-- ===== string-order lemmas =====

theorem chLe_total : ∀ a b : List Char, chLe a b = true ∨ chLe b a = true := by
  intro a
  induction a with
  | nil => intro b; left; rfl
  | cons x xs ih =>
    intro b
    cases b with
    | nil => right; rfl
    | cons y ys =>
      by_cases h1 : x.toNat < y.toNat
      · left
        simp only [chLe, if_pos h1]
      · by_cases h2 : x.toNat = y.toNat
        · have hxy : ¬ x.toNat < y.toNat := by omega
          have hyx : ¬ y.toNat < x.toNat := by omega
          rcases ih ys with h | h
          · left
            simp only [chLe, if_neg hxy, if_pos h2]
            exact h
          · right
            simp only [chLe, if_neg hyx, if_pos h2.symm]
            exact h
        · have hyx : y.toNat < x.toNat := by omega
          right
          simp only [chLe, if_pos hyx]

theorem chLe_trans : ∀ a b c : List Char,
    chLe a b = true → chLe b c = true → chLe a c = true := by
  intro a
  induction a with
  | nil => intro b c _ _; rfl
  | cons x xs ih =>
    intro b c hab hbc
    cases b with
    | nil => simp [chLe] at hab
    | cons y ys =>
      cases c with
      | nil => simp [chLe] at hbc
      | cons z zs =>
        simp only [chLe] at hab hbc ⊢
        by_cases h1 : x.toNat < y.toNat
        · by_cases h2 : y.toNat < z.toNat
          · rw [if_pos (by omega : x.toNat < z.toNat)]
          · rw [if_neg h2] at hbc
            by_cases h3 : y.toNat = z.toNat
            · rw [if_pos (by omega : x.toNat < z.toNat)]
            · rw [if_neg h3] at hbc
              exact absurd hbc (by simp)
        · rw [if_neg h1] at hab
          by_cases h4 : x.toNat = y.toNat
          · rw [if_pos h4] at hab
            by_cases h2 : y.toNat < z.toNat
            · rw [if_pos (by omega : x.toNat < z.toNat)]
            · rw [if_neg h2] at hbc
              by_cases h3 : y.toNat = z.toNat
              · rw [if_pos h3] at hbc
                rw [if_neg (by omega : ¬ x.toNat < z.toNat),
                  if_pos (by omega : x.toNat = z.toNat)]
                exact ih ys zs hab hbc
              · rw [if_neg h3] at hbc
                exact absurd hbc (by simp)
          · rw [if_neg h4] at hab
            exact absurd hab (by simp)

instance : IsTotal String strAsc :=
  ⟨fun a b => chLe_total a.data b.data⟩

instance : IsTrans String strAsc :=
  ⟨fun a b c hab hbc => chLe_trans a.data b.data c.data hab hbc⟩

-- ===== monthly-breakdown lemmas =====

/-- The group counts in the monthly breakdown sum to the click count. -/
theorem month_counts_sum (cs : List Click) :
    ((month_counts cs).map MonthlyBreakdown.clicks).sum = cs.length := by
  simp only [month_counts]
  rw [List.map_map]
  have hcomp : (MonthlyBreakdown.clicks ∘ fun m =>
      (⟨m, (cs.map (fun c => monthKey c.clicked_at)).count m⟩ : MonthlyBreakdown))
      = fun m => (cs.map (fun c => monthKey c.clicked_at)).count m := rfl
  rw [hcomp]
  have hperm :
      List.Perm
        ((List.insertionSort strAsc (cs.map (fun c => monthKey c.clicked_at)).dedup).map
          (fun m => (cs.map (fun c => monthKey c.clicked_at)).count m))
        (((cs.map (fun c => monthKey c.clicked_at)).dedup).map
          (fun m => (cs.map (fun c => monthKey c.clicked_at)).count m)) :=
    (List.perm_insertionSort strAsc _).map _
  rw [hperm.sum_eq]
  rw [List.sum_map_count_dedup_eq_length]
  simp

/-- The months of the breakdown are the sorted deduplicated month keys. -/
theorem month_counts_months (cs : List Click) :
    (month_counts cs).map MonthlyBreakdown.month =
      List.insertionSort strAsc (cs.map (fun c => monthKey c.clicked_at)).dedup := by
  simp only [month_counts]
  rw [List.map_map]
  exact List.map_id _

/-- The breakdown is ordered ascending by month string. -/
theorem month_counts_sorted (cs : List Click) :
    ((month_counts cs).map MonthlyBreakdown.month).Pairwise strAsc := by
  rw [month_counts_months]
  exact List.sorted_insertionSort strAsc _

/-- Every breakdown entry is the month key of one of the clicks, and its
count is the number of clicks falling in that month. -/
theorem month_counts_mem {cs : List Click} {e : MonthlyBreakdown}
    (he : e ∈ month_counts cs) :
    e.month ∈ cs.map (fun c => monthKey c.clicked_at) ∧
    e.clicks = (cs.filter (fun c => monthKey c.clicked_at == e.month)).length := by
  simp only [month_counts] at he
  rw [List.mem_map] at he
  obtain ⟨m, hm, he⟩ := he
  have hmem : m ∈ (cs.map fun c => monthKey c.clicked_at).dedup :=
    ((List.perm_insertionSort strAsc _).mem_iff).mp hm
  rw [List.mem_dedup] at hmem
  subst he
  refine ⟨hmem, ?_⟩
  show (cs.map fun c => monthKey c.clicked_at).count m = _
  rw [List.count_eq_countP, List.countP_map, List.countP_eq_length_filter]
  rfl

/-- Every entry of a stats page is the aggregation of one stored link. -/
theorem mem_stats_links {db : DB} {page limit : Int} {ls : LinkStats}
    (hls : ls ∈ (get_stats db page limit).links) :
    ∃ l ∈ db.links, link_stats db l = ls := by
  simp only [get_stats, List.mem_map] at hls
  obtain ⟨l, hl, hml⟩ := hls
  refine ⟨l, ?_, hml⟩
  have h1 : l ∈ List.insertionSort linkDescCreated db.links :=
    List.drop_subset _ _ (List.take_subset _ _ hl)
  exact ((List.perm_insertionSort linkDescCreated db.links).mem_iff).mp h1

/-- Claim C5: monthly breakdown correctness.  Every link entry of a stats
result is the aggregation of a stored link; its breakdown counts sum to
total_clicks; when every stored click carries a real calendar datetime,
every month string matches YYYY-MM; the entries are ordered ascending by
month string; and each entry's count is the number of that link's clicks
whose clicked_at falls in that month. -/
theorem get_stats_monthly_breakdown (db : DB) (page limit : Int)
    (hv : ∀ c ∈ db.clicks,
      1 ≤ c.clicked_at.month ∧ c.clicked_at.month ≤ 12 ∧ c.clicked_at.year ≤ 9999) :
    ∀ ls ∈ (get_stats db page limit).links, ∃ l ∈ db.links,
      ls = link_stats db l
      ∧ (ls.monthly_breakdown.map MonthlyBreakdown.clicks).sum = ls.total_clicks
      ∧ (∀ e ∈ ls.monthly_breakdown, isYYYYMM e.month = true)
      ∧ (ls.monthly_breakdown.map MonthlyBreakdown.month).Pairwise strAsc
      ∧ ∀ e ∈ ls.monthly_breakdown,
          e.clicks = ((db.clicks.filter (fun c => c.link_id == l.id)).filter
            (fun c => monthKey c.clicked_at == e.month)).length := by
  intro ls hls
  obtain ⟨l, hlmem, hml⟩ := mem_stats_links hls
  subst hml
  refine ⟨l, hlmem, rfl, ?_, ?_, ?_, ?_⟩
  · exact month_counts_sum _
  · intro e he
    have hmem := (month_counts_mem he).1
    rw [List.mem_map] at hmem
    obtain ⟨c, hc, hkey⟩ := hmem
    have hcdb : c ∈ db.clicks := List.mem_of_mem_filter hc
    obtain ⟨hm1, hm2, hy⟩ := hv c hcdb
    rw [← hkey]
    exact monthKey_isYYYYMM _ hm1 hm2 hy
  · exact month_counts_sorted _
  · intro e he
    exact (month_counts_mem he).2

/-- The one-link store with two clicks in different months, used by the
breakdown witness. -/
def dbClicks : DB :=
  (record_click (record_click dbOne 0 ⟨2024,2,1,0,0,0,0⟩).1 0 ⟨2024,1,15,0,0,0,0⟩).1

/-- Claim C5 witness: the breakdown facts at a concrete two-click store. -/
theorem get_stats_monthly_breakdown_witness :
    (∀ c ∈ dbClicks.clicks,
      1 ≤ c.clicked_at.month ∧ c.clicked_at.month ≤ 12 ∧ c.clicked_at.year ≤ 9999)
    ∧ ∀ ls ∈ (get_stats dbClicks 1 20).links, ∃ l ∈ dbClicks.links,
      ls = link_stats dbClicks l
      ∧ (ls.monthly_breakdown.map MonthlyBreakdown.clicks).sum = ls.total_clicks
      ∧ (∀ e ∈ ls.monthly_breakdown, isYYYYMM e.month = true)
      ∧ (ls.monthly_breakdown.map MonthlyBreakdown.month).Pairwise strAsc
      ∧ ∀ e ∈ ls.monthly_breakdown,
          e.clicks = ((dbClicks.clicks.filter (fun c => c.link_id == l.id)).filter
            (fun c => monthKey c.clicked_at == e.month)).length :=
  ⟨by decide, get_stats_monthly_breakdown dbClicks 1 20 (by decide)⟩

-- ===== earnings lemmas =====

theorem roundHalfEven_intCast (n : ℤ) : roundHalfEven (n : ℚ) = n := by
  unfold roundHalfEven
  rw [Int.floor_intCast, sub_self]
  norm_num

/-- Earnings are exactly clicks times five cents: rounding to two decimal
places is the identity on multiples of 0.05. -/
theorem pyRound2_clicks (k : Nat) :
    pyRound2 ((k : ℚ) * EARNINGS_PER_CLICK) = (k : ℚ) * 5 / 100 := by
  unfold pyRound2 EARNINGS_PER_CLICK
  have h : ((k : ℚ) * (5 / 100)) * 100 = ((k * 5 : ℤ) : ℚ) := by
    push_cast
    ring
  rw [h, roundHalfEven_intCast]
  push_cast
  ring

/-- One recorded click adds exactly one row counted for its link id. -/
theorem record_click_count (db : DB) (link_id : Nat) (now : DateTime) :
    clickCount (record_click db link_id now).1 link_id = clickCount db link_id + 1 := by
  simp [clickCount, record_click, List.filter_append]

/-- Folding record_click over a list of timestamps (N sequential clicks). -/
def record_clicks (db : DB) (link_id : Nat) : List DateTime → DB
  | [] => db
  | t :: ts => record_clicks (record_click db link_id t).1 link_id ts

theorem record_clicks_count (db : DB) (link_id : Nat) (ts : List DateTime) :
    clickCount (record_clicks db link_id ts) link_id =
      clickCount db link_id + ts.length := by
  induction ts generalizing db with
  | nil => rfl
  | cons t ts ih =>
    show clickCount (record_clicks (record_click db link_id t).1 link_id ts) link_id = _
    rw [ih, record_click_count]
    simp only [List.length_cons]
    omega

/-- Claim C6: earnings derivation.  Every stats entry reports total_clicks
equal to the exact count of Click rows for its link and total_earnings
equal to round(total_clicks * 0.05, 2), which is exactly clicks times five
cents; recording N clicks yields total_clicks = N more than before, and
ten clicks on a fresh store give earnings 0.50. -/
theorem earnings_derivation (db : DB) (page limit : Int) (l : Link)
    (ts : List DateTime) :
    (∀ ls ∈ (get_stats db page limit).links, ∃ l2 ∈ db.links,
      ls = link_stats db l2
      ∧ ls.total_clicks = clickCount db l2.id
      ∧ ls.total_earnings = pyRound2 ((ls.total_clicks : ℚ) * EARNINGS_PER_CLICK)
      ∧ ls.total_earnings = (ls.total_clicks : ℚ) * 5 / 100)
    ∧ (link_stats (record_clicks db l.id ts) l).total_clicks
        = clickCount db l.id + ts.length
    ∧ (link_stats (record_clicks db l.id ts) l).total_earnings
        = ((link_stats (record_clicks db l.id ts) l).total_clicks : ℚ) * 5 / 100
    ∧ (db.clicks = [] → ts.length = 10 →
        (link_stats (record_clicks db l.id ts) l).total_earnings = 1 / 2) := by
  have hclicks : (link_stats (record_clicks db l.id ts) l).total_clicks
      = clickCount db l.id + ts.length := record_clicks_count db l.id ts
  have hearn : (link_stats (record_clicks db l.id ts) l).total_earnings
      = ((link_stats (record_clicks db l.id ts) l).total_clicks : ℚ) * 5 / 100 :=
    pyRound2_clicks _
  refine ⟨?_, hclicks, hearn, ?_⟩
  · intro ls hls
    obtain ⟨l2, hl2, hml⟩ := mem_stats_links hls
    subst hml
    exact ⟨l2, hl2, rfl, rfl, rfl, pyRound2_clicks _⟩
  · intro hempty hlen
    have hz : clickCount db l.id = 0 := by simp [clickCount, hempty]
    have h10 : (link_stats (record_clicks db l.id ts) l).total_clicks = 10 := by
      omega
    rw [hearn, h10]
    norm_num

/-- Ten identical timestamps: the ten clicks of the earnings witness. -/
def ts10 : List DateTime := List.replicate 10 ⟨2024,3,1,0,0,0,0⟩

/-- The single stored link of the one-link store. -/
def linkOne : Link := ⟨0, "aaaaaa", "https://fiverr.com/a", ⟨2024,1,1,0,0,0,0⟩⟩

/-- Claim C6 witness: ten clicks on the freshly created link earn exactly
one half (0.50). -/
theorem earnings_derivation_witness :
    (∀ ls ∈ (get_stats dbOne 1 20).links, ∃ l2 ∈ dbOne.links,
      ls = link_stats dbOne l2
      ∧ ls.total_clicks = clickCount dbOne l2.id
      ∧ ls.total_earnings = pyRound2 ((ls.total_clicks : ℚ) * EARNINGS_PER_CLICK)
      ∧ ls.total_earnings = (ls.total_clicks : ℚ) * 5 / 100)
    ∧ (link_stats (record_clicks dbOne linkOne.id ts10) linkOne).total_clicks
        = clickCount dbOne linkOne.id + ts10.length
    ∧ (link_stats (record_clicks dbOne linkOne.id ts10) linkOne).total_earnings
        = ((link_stats (record_clicks dbOne linkOne.id ts10) linkOne).total_clicks : ℚ) * 5 / 100
    ∧ (link_stats (record_clicks dbOne linkOne.id ts10) linkOne).total_earnings = 1 / 2 := by
  have h := earnings_derivation dbOne 1 20 linkOne ts10
  exact ⟨h.1, h.2.1, h.2.2.1, h.2.2.2 rfl rfl⟩

/-- Sanity: the all-zero draw generates the code aaaaaa. -/
theorem generate_short_code_zero :
    generate_short_code (fun _ => (0 : Fin 36)) = "aaaaaa" := rfl

/-- Sanity: the month key of March 2024 renders as 2024-03. -/
theorem monthKey_march : monthKey ⟨2024, 3, 1, 0, 0, 0, 0⟩ = "2024-03" := rfl
